import Mathlib

/-!
# Verification of the gRPC service reflector

Shallow embedding of `reflector.go` (package `reflector`): the service
enumerator `GetServices`, the schema-registry adapter `getMethodDescriptor` /
`getMessageSchema`, and the compact formatter `FormatServices`.

External collaborators are modelled as explicit data:
* the global protobuf descriptor registry (`protoregistry.GlobalFiles`) is a
  list of `FileDescriptor`s, each holding its declared services, methods and
  message descriptors, enumerated in list order (the registry's enumeration
  order is unspecified in Go; the list order stands for whatever order the
  registry yields);
* the live server registry (`grpc.Server.GetServiceInfo()`, a Go map) is a
  list of `(service name, service info)` pairs, again in the order the map
  iteration yields.

Go slices become `List`, Go strings become `String` (parsing is performed on
`String.data`, the underlying `List Char`, so that everything is executable
and kernel-reducible), a nilable Go pointer or interface value becomes
`Option`, and a Go `(T, error)` return becomes `Except ReflectorError T`
(or `T × Option ReflectorError` for `GetServices`, whose slice result is
returned alongside the error).
-/

namespace Reflector

/-- Cardinality of a protobuf field (`protoreflect.Cardinality`). -/
inductive Cardinality where
  | optional
  | required
  | repeated
deriving DecidableEq, Repr

mutual

/-- A protobuf message descriptor (`protoreflect.MessageDescriptor`):
its full name and its fields in declaration order. -/
inductive MessageDescriptor where
  | mk (fullName : String) (fields : List FieldDescriptor)

/-- A protobuf field descriptor (`protoreflect.FieldDescriptor`):
name, number, kind and cardinality.  For the `message` and `group` kinds the
kind itself carries the nested message descriptor (`field.Message()`, which is
non-nil exactly for those kinds). -/
inductive FieldDescriptor where
  | mk (name : String) (number : Int) (kind : Kind) (cardinality : Cardinality)

/-- A protobuf field kind (`protoreflect.Kind`). -/
inductive Kind where
  | double
  | float
  | int64
  | uint64
  | int32
  | fixed64
  | fixed32
  | bool
  | string
  | group (m : MessageDescriptor)
  | message (m : MessageDescriptor)
  | bytes
  | uint32
  | enum
  | sfixed32
  | sfixed64
  | sint32
  | sint64

end

/-- `MessageDescriptor.FullName()`. -/
def MessageDescriptor.fullName : MessageDescriptor → String
  | .mk n _ => n

/-- `MessageDescriptor.Fields()` in declaration order. -/
def MessageDescriptor.fields : MessageDescriptor → List FieldDescriptor
  | .mk _ fs => fs

/-- `FieldDescriptor.Name()`. -/
def FieldDescriptor.name : FieldDescriptor → String
  | .mk n _ _ _ => n

/-- `FieldDescriptor.Number()`. -/
def FieldDescriptor.number : FieldDescriptor → Int
  | .mk _ n _ _ => n

/-- `FieldDescriptor.Kind()`. -/
def FieldDescriptor.kind : FieldDescriptor → Kind
  | .mk _ _ k _ => k

/-- `FieldDescriptor.Cardinality()`. -/
def FieldDescriptor.cardinality : FieldDescriptor → Cardinality
  | .mk _ _ _ c => c

/-- `protoreflect.Kind.String()`: the lower-case kind name. -/
def Kind.kindString : Kind → String
  | .double => "double"
  | .float => "float"
  | .int64 => "int64"
  | .uint64 => "uint64"
  | .int32 => "int32"
  | .fixed64 => "fixed64"
  | .fixed32 => "fixed32"
  | .bool => "bool"
  | .string => "string"
  | .group _ => "group"
  | .message _ => "message"
  | .bytes => "bytes"
  | .uint32 => "uint32"
  | .enum => "enum"
  | .sfixed32 => "sfixed32"
  | .sfixed64 => "sfixed64"
  | .sint32 => "sint32"
  | .sint64 => "sint64"

/-- A protobuf method descriptor (`protoreflect.MethodDescriptor`): its name
and the message descriptors returned by `Input()` and `Output()` (both
non-nil on a real descriptor). -/
structure MethodDescriptor where
  name : String
  input : MessageDescriptor
  output : MessageDescriptor

/-- A protobuf service descriptor (`protoreflect.ServiceDescriptor`):
full name and its methods in declaration order. -/
structure ServiceDescriptor where
  fullName : String
  methods : List MethodDescriptor

/-- A protobuf file descriptor (`protoreflect.FileDescriptor`): its declared
services in declaration order. -/
structure FileDescriptor where
  services : List ServiceDescriptor

/-- The global descriptor registry (`protoregistry.GlobalFiles`): the loaded
schema files in the order `RangeFiles` enumerates them. -/
abbrev Registry := List FileDescriptor

/-- `grpc.MethodInfo` as exposed by `grpc.Server.GetServiceInfo()`. -/
structure GrpcMethodInfo where
  Name : String
deriving DecidableEq, Repr

/-- `grpc.ServiceInfo` as exposed by `grpc.Server.GetServiceInfo()`. -/
structure GrpcServiceInfo where
  Methods : List GrpcMethodInfo
deriving DecidableEq, Repr

/-- The live server registry: `server.GetServiceInfo()` is a Go map from
service name to `grpc.ServiceInfo`; we model it as the list of its entries in
iteration order. -/
abbrev ServerHandle := List (String × GrpcServiceInfo)

/-- `FieldInfo` struct of `reflector.go` (the field `Type` is written
`«Type»` because `Type` is a Lean keyword). -/
structure FieldInfo where
  Name : String
  Number : Int
  «Type» : String
  Repeated : Bool
deriving DecidableEq, Repr

/-- `MessageSchema` struct of `reflector.go`. -/
structure MessageSchema where
  Name : String
  Fields : List FieldInfo
deriving DecidableEq, Repr

/-- `MethodInfo` struct of `reflector.go`.  The Go zero values (`""` for the
type names, `nil` for the schema pointers) are the "absent" states. -/
structure MethodInfo where
  Name : String
  InputType : String
  OutputType : String
  InputSchema : Option MessageSchema
  OutputSchema : Option MessageSchema
deriving DecidableEq, Repr

/-- `ServiceInfo` struct of `reflector.go`. -/
structure ServiceInfo where
  Name : String
  Methods : List MethodInfo
deriving DecidableEq, Repr

/-- The distinct error values the reflector constructs with `fmt.Errorf`. -/
inductive ReflectorError where
  | malformedName (fullMethodName : String)
  | notFound (fullMethodName : String)
  | nilDescriptor
deriving DecidableEq, Repr

/-- The message carried by each error, exactly as `fmt.Errorf` formats it. -/
def ReflectorError.message : ReflectorError → String
  | .malformedName s => "invalid method name format: " ++ s
  | .notFound s => "method descriptor not found for " ++ s
  | .nilDescriptor => "message descriptor is nil"

/-- Go `strings.Split(s, "/")` on the underlying character list: splits at
every `'/'`, keeping empty segments (`strings.Split("", "/") = [""]`,
`strings.Split("/", "/") = ["", ""]`). -/
def splitSlash : List Char → List (List Char)
  | [] => [[]]
  | c :: cs =>
    if c = '/' then [] :: splitSlash cs
    else
      match splitSlash cs with
      | [] => [[c]]
      | h :: t => (c :: h) :: t

/-- Go `strings.Split(s, "/")` at the `String` level. -/
def stringsSplitSlash (s : String) : List String :=
  (splitSlash s.data).map (fun l => ⟨l⟩)

/-- Go `strings.TrimPrefix(s, "/")`: drop one leading slash if present. -/
def trimPrefixSlash (s : String) : String :=
  match s.data with
  | '/' :: rest => ⟨rest⟩
  | _ => s

/-- The scan inside one file of the `RangeFiles` loop of
`getMethodDescriptor`: over the file's services in order, for a service whose
full name equals `serviceName` look through its methods in order for one named
`methodName`; the first hit stops the whole scan. -/
def findInFile (fd : FileDescriptor) (serviceName methodName : String) :
    Option MethodDescriptor :=
  fd.services.findSome? fun sd =>
    if sd.fullName = serviceName then
      sd.methods.find? (fun md => md.name = methodName)
    else
      none

/-- The full `RangeFiles` scan of `getMethodDescriptor`: files in registry
order, short-circuiting on the first match (`return false`). -/
def findMethod (reg : Registry) (serviceName methodName : String) :
    Option MethodDescriptor :=
  reg.findSome? fun fd => findInFile fd serviceName methodName

/-- `getMethodDescriptor` of `reflector.go`.  The global registry
`protoregistry.GlobalFiles` is passed explicitly as `reg`.  The Go length
check `len(parts) != 2` is rendered as the pattern match: a list has length
two exactly when it is `[serviceName, parts[1]]`. -/
def getMethodDescriptor (reg : Registry) (fullMethodName : String) :
    Except ReflectorError MethodDescriptor :=
  match stringsSplitSlash (trimPrefixSlash fullMethodName) with
  | [serviceName, methodName] =>
    match findMethod reg serviceName methodName with
    | some methodDesc => .ok methodDesc
    | none => .error (.notFound fullMethodName)
  | _ => .error (.malformedName fullMethodName)

/-- The body of the field loop of `getMessageSchema`: build one `FieldInfo`
from one field descriptor.  `Type` starts as `field.Kind().String()` and is
overwritten with `field.Message().FullName()` when the kind is `MessageKind`. -/
def fieldInfoOf (field : FieldDescriptor) : FieldInfo :=
  let fieldInfo : FieldInfo :=
    { Name := field.name
      Number := field.number
      «Type» := field.kind.kindString
      Repeated := field.cardinality = Cardinality.repeated }
  match field.kind with
  | .message m => { fieldInfo with «Type» := m.fullName }
  | _ => fieldInfo

/-- `getMessageSchema` of `reflector.go`; the argument is `Option` because the
Go descriptor interface value may be nil. -/
def getMessageSchema : Option MessageDescriptor → Except ReflectorError MessageSchema
  | none => .error .nilDescriptor
  | some msgDesc =>
    .ok { Name := msgDesc.fullName
          Fields := msgDesc.fields.map fieldInfoOf }

/-- The body of the method loop of `GetServices`: build one `MethodInfo` for
the registered method `methodName` of service `serviceName`.  All fields
except `Name` keep their Go zero values unless `getMethodDescriptor` succeeds. -/
def mkMethodInfo (reg : Registry) (serviceName methodName : String) : MethodInfo :=
  let methodInfo : MethodInfo :=
    { Name := methodName
      InputType := ""
      OutputType := ""
      InputSchema := none
      OutputSchema := none }
  match getMethodDescriptor reg ("/" ++ serviceName ++ "/" ++ methodName) with
  | .ok desc =>
    let methodInfo := { methodInfo with
      InputType := desc.input.fullName
      OutputType := desc.output.fullName }
    let methodInfo :=
      match getMessageSchema (some desc.input) with
      | .ok inputSchema => { methodInfo with InputSchema := some inputSchema }
      | .error _ => methodInfo
    match getMessageSchema (some desc.output) with
    | .ok outputSchema => { methodInfo with OutputSchema := some outputSchema }
    | .error _ => methodInfo
  | .error _ => methodInfo

/-- `GetServices` of `reflector.go`: walk the server's service registry and
build the aggregated model; the second component is the Go `error` result. -/
def GetServices (reg : Registry) (server : ServerHandle) :
    List ServiceInfo × Option ReflectorError :=
  (server.map fun p =>
    { Name := p.1
      Methods := p.2.Methods.map fun method => mkMethodInfo reg p.1 method.Name },
   none)

/-- `FormatServices` of `reflector.go`: the `strings.Builder` is the
accumulator of the folds. -/
def FormatServices (services : List ServiceInfo) : String :=
  services.foldl (fun sb service =>
    (service.Methods.foldl (fun sb method =>
      let sb := sb ++ "    * " ++ method.Name
      let sb :=
        if method.InputType ≠ "" ∧ method.OutputType ≠ "" then
          sb ++ "(" ++ method.InputType ++ ") returns (" ++ method.OutputType ++ ")"
        else
          sb
      sb ++ "\n")
      (sb ++ "  - " ++ service.Name ++ "\n")))
    ""

/-- All method descriptors matching `(serviceName, methodName)` declared in
one file, in the file's declaration order: the candidates the `RangeFiles`
scan would visit inside this file. -/
def fileMatches (fd : FileDescriptor) (serviceName methodName : String) :
    List MethodDescriptor :=
  fd.services.flatMap fun sd =>
    if sd.fullName = serviceName then
      sd.methods.filter (fun md => md.name = methodName)
    else
      []

/-- All method descriptors matching `(serviceName, methodName)` in the whole
registry, in the registry's enumeration order. -/
def matchingMethods (reg : Registry) (serviceName methodName : String) :
    List MethodDescriptor :=
  reg.flatMap fun fd => fileMatches fd serviceName methodName

theorem find?_eq_head?_filter {α : Type} (p : α → Bool) (l : List α) :
    l.find? p = (l.filter p).head? := by
  induction l with
  | nil => rfl
  | cons a l ih =>
    by_cases h : p a
    · rw [List.find?_cons_of_pos l h, List.filter_cons_of_pos h, List.head?_cons]
    · rw [List.find?_cons_of_neg l h, List.filter_cons_of_neg h, ih]

theorem head?_flatMap {α β : Type} (l : List α) (g : α → List β) :
    (l.flatMap g).head? = l.findSome? fun a => (g a).head? := by
  rw [List.flatMap_def, List.head?_flatten, List.findSome?_map]
  rfl

theorem fileMatches_head? (fd : FileDescriptor) (a b : String) :
    (fileMatches fd a b).head? = findInFile fd a b := by
  unfold fileMatches findInFile
  rw [head?_flatMap]
  have h : (fun sd : ServiceDescriptor =>
      (if sd.fullName = a then sd.methods.filter (fun md => md.name = b)
        else []).head?) =
      (fun sd : ServiceDescriptor =>
        if sd.fullName = a then sd.methods.find? (fun md => md.name = b)
        else none) := by
    funext sd
    split
    · exact (find?_eq_head?_filter _ _).symm
    · rfl
  rw [h]

theorem findMethod_eq_head? (reg : Registry) (a b : String) :
    findMethod reg a b = (matchingMethods reg a b).head? := by
  unfold findMethod matchingMethods
  rw [head?_flatMap]
  have h : (fun fd : FileDescriptor => (fileMatches fd a b).head?) =
      (fun fd : FileDescriptor => findInFile fd a b) := by
    funext fd
    exact fileMatches_head? fd a b
  rw [h]

theorem mem_matchingMethods {reg : Registry} {a b : String}
    {md : MethodDescriptor} (h : md ∈ matchingMethods reg a b) :
    md.name = b ∧ ∃ fd ∈ reg, ∃ sd ∈ fd.services,
      sd.fullName = a ∧ md ∈ sd.methods := by
  unfold matchingMethods fileMatches at h
  rw [List.mem_flatMap] at h
  obtain ⟨fd, hfd, h⟩ := h
  rw [List.mem_flatMap] at h
  obtain ⟨sd, hsd, h⟩ := h
  by_cases hc : sd.fullName = a
  · rw [if_pos hc] at h
    rw [List.mem_filter] at h
    refine ⟨by simpa using h.2, fd, hfd, sd, hsd, hc, h.1⟩
  · rw [if_neg hc] at h
    exact absurd h (List.not_mem_nil md)

/-- The two-segment case of `getMethodDescriptor`: when the trimmed name
splits into exactly two segments the result is decided by the registry scan. -/
theorem getMethodDescriptor_two_segments (reg : Registry)
    (s service method : String)
    (h1 : stringsSplitSlash (trimPrefixSlash s) = [service, method]) :
    getMethodDescriptor reg s =
      match findMethod reg service method with
      | some md => .ok md
      | none => .error (.notFound s) := by
  unfold getMethodDescriptor
  rw [h1]

/-- Claim C2 counterexample: the input `"//"` strips to `"/"` and splits into two
empty segments, so the claim demands `MalformedNameError`; the code performs
the registry scan instead and (with no matching service) reports
`NotFoundError`. -/
theorem empty_segments_not_malformed :
    getMethodDescriptor [] "//" = .error (.notFound "//") ∧
    getMethodDescriptor [] "//" ≠ .error (.malformedName "//") := by
  refine ⟨rfl, fun hc => ?_⟩
  rw [show getMethodDescriptor [] "//" =
    Except.error (ReflectorError.notFound "//") from rfl] at hc
  exact absurd (Except.error.inj hc) (by decide)

/-- Claim C2 (amended): `getMethodDescriptor` fails with `MalformedNameError`
exactly when, after stripping one leading slash, the input does not split at
`'/'` into exactly two segments — the segments are not required to be
non-empty. -/
theorem malformed_iff_not_two_segments (reg : Registry) (s : String) :
    getMethodDescriptor reg s = .error (.malformedName s) ↔
      (stringsSplitSlash (trimPrefixSlash s)).length ≠ 2 := by
  unfold getMethodDescriptor
  cases hp : stringsSplitSlash (trimPrefixSlash s) with
  | nil => simp
  | cons a t =>
    cases t with
    | nil => simp
    | cons b t2 =>
      cases t2 with
      | nil =>
        cases hf : findMethod reg a b <;> simp [hf]
      | cons c t3 => simp

/-- Claim C3: when the name parses as `/<service>/<method>` and the scan succeeds,
the returned descriptor is named `<method>`, belongs to a registered service
whose full name is `<service>`, and is the first match in the registry's
enumeration order. -/
theorem getMethodDescriptor_first_match (reg : Registry)
    (s service method : String) (md : MethodDescriptor)
    (h1 : stringsSplitSlash (trimPrefixSlash s) = [service, method])
    (h2 : getMethodDescriptor reg s = .ok md) :
    md.name = method ∧
    (∃ fd ∈ reg, ∃ sd ∈ fd.services, sd.fullName = service ∧ md ∈ sd.methods) ∧
    (matchingMethods reg service method).head? = some md := by
  rw [getMethodDescriptor_two_segments reg s service method h1] at h2
  cases hf : findMethod reg service method with
  | none =>
    rw [hf] at h2
    simp at h2
  | some md2 =>
    rw [hf] at h2
    have hmd : md2 = md := by simpa using h2
    rw [hmd] at hf
    have hh : (matchingMethods reg service method).head? = some md := by
      rw [← findMethod_eq_head?]
      exact hf
    have hmem : md ∈ matchingMethods reg service method := by
      rcases List.head?_eq_some_iff.mp hh with ⟨ys, hys⟩
      rw [hys]
      exact List.mem_cons_self _ _
    obtain ⟨hname, hex⟩ := mem_matchingMethods hmem
    exact ⟨hname, hex, hh⟩

/-- Claim C6: a well-formed name whose service/method pair occurs nowhere in the
registry fails with `NotFoundError`. -/
theorem getMethodDescriptor_not_found (reg : Registry)
    (s service method : String)
    (h1 : stringsSplitSlash (trimPrefixSlash s) = [service, method])
    (h2 : ∀ fd ∈ reg, ∀ sd ∈ fd.services, sd.fullName = service →
      ∀ md ∈ sd.methods, md.name ≠ method) :
    getMethodDescriptor reg s = .error (.notFound s) := by
  have hnone : findMethod reg service method = none := by
    unfold findMethod findInFile
    rw [List.findSome?_eq_none_iff]
    intro fd hfd
    rw [List.findSome?_eq_none_iff]
    intro sd hsd
    by_cases hfull : sd.fullName = service
    · rw [if_pos hfull, List.find?_eq_none]
      intro md hmd
      simp only [decide_eq_true_eq]
      exact h2 fd hfd sd hsd hfull md hmd
    · rw [if_neg hfull]
  rw [getMethodDescriptor_two_segments reg s service method h1, hnone]

theorem mkMethodInfo_name (reg : Registry) (serviceName methodName : String) :
    (mkMethodInfo reg serviceName methodName).Name = methodName := by
  unfold mkMethodInfo
  cases hd : getMethodDescriptor reg ("/" ++ serviceName ++ "/" ++ methodName) <;> rfl

theorem mkMethodInfo_of_error (reg : Registry) (serviceName methodName : String)
    (e : ReflectorError)
    (h : getMethodDescriptor reg ("/" ++ serviceName ++ "/" ++ methodName) = .error e) :
    mkMethodInfo reg serviceName methodName =
      { Name := methodName, InputType := "", OutputType := "",
        InputSchema := none, OutputSchema := none } := by
  unfold mkMethodInfo
  rw [h]

theorem mkMethodInfo_of_ok (reg : Registry) (serviceName methodName : String)
    (desc : MethodDescriptor)
    (h : getMethodDescriptor reg ("/" ++ serviceName ++ "/" ++ methodName) = .ok desc) :
    mkMethodInfo reg serviceName methodName =
      { Name := methodName
        InputType := desc.input.fullName
        OutputType := desc.output.fullName
        InputSchema := some { Name := desc.input.fullName
                              Fields := desc.input.fields.map fieldInfoOf }
        OutputSchema := some { Name := desc.output.fullName
                               Fields := desc.output.fields.map fieldInfoOf } } := by
  unfold mkMethodInfo
  rw [h]
  rfl

/-- Claim C1: enumeration is best-effort: the call reports no error, every
registered service and method yields exactly one entry (in registration
order, each method's entry computed from that method's name alone), a method
whose descriptor lookup fails keeps all type/schema fields absent, and a
server with zero services yields the empty sequence. -/
theorem getServices_best_effort (reg : Registry) (server : ServerHandle) :
    (GetServices reg server).2 = none ∧
    List.Forall₂ (fun (p : String × GrpcServiceInfo) (si : ServiceInfo) =>
      si.Name = p.1 ∧
      List.Forall₂ (fun (m : GrpcMethodInfo) (mi : MethodInfo) =>
        mi.Name = m.Name ∧ mi = mkMethodInfo reg p.1 m.Name)
        p.2.Methods si.Methods)
      server (GetServices reg server).1 ∧
    (∀ serviceName methodName,
      (∃ e, getMethodDescriptor reg ("/" ++ serviceName ++ "/" ++ methodName) =
        .error e) →
      mkMethodInfo reg serviceName methodName =
        { Name := methodName, InputType := "", OutputType := "",
          InputSchema := none, OutputSchema := none }) ∧
    GetServices reg [] = ([], none) := by
  refine ⟨rfl, ?_, ?_, rfl⟩
  · have hGet : (GetServices reg server).1 = server.map fun p =>
        ({ Name := p.1
           Methods := p.2.Methods.map fun method =>
             mkMethodInfo reg p.1 method.Name } : ServiceInfo) := rfl
    rw [hGet, List.forall₂_map_right_iff, List.forall₂_same]
    intro p _
    refine ⟨rfl, ?_⟩
    rw [List.forall₂_map_right_iff, List.forall₂_same]
    intro m _
    exact ⟨mkMethodInfo_name reg p.1 m.Name, rfl⟩
  · intro serviceName methodName ⟨e, he⟩
    exact mkMethodInfo_of_error reg serviceName methodName e he

/-- Claim C9: the error component of `GetServices` is always `nil`: the function's
only return statement is `return services, nil`. -/
theorem getServices_error_always_nil (reg : Registry) (server : ServerHandle) :
    (GetServices reg server).2 = none := rfl

theorem fieldInfoOf_spec (f : FieldDescriptor) :
    (fieldInfoOf f).Name = f.name ∧
    (fieldInfoOf f).Number = f.number ∧
    ((fieldInfoOf f).Repeated = true ↔ f.cardinality = Cardinality.repeated) ∧
    (∀ m, f.kind = Kind.message m → (fieldInfoOf f).«Type» = m.fullName) ∧
    ((∀ m, f.kind ≠ Kind.message m) → (fieldInfoOf f).«Type» = f.kind.kindString) := by
  obtain ⟨n, num, k, c⟩ := f
  simp only [FieldDescriptor.name, FieldDescriptor.number, FieldDescriptor.kind,
    FieldDescriptor.cardinality]
  cases k
  case message m =>
    refine ⟨rfl, rfl, ?_, fun m2 hm => ?_, fun hm => absurd rfl (hm m)⟩
    · simp only [fieldInfoOf, FieldDescriptor.kind, FieldDescriptor.cardinality,
        decide_eq_true_eq]
    · have hm2 : m = m2 := by
        injection hm
      rw [← hm2]
      rfl
  all_goals refine ⟨rfl, rfl, ?_, fun m2 hm => by injection hm, fun _ => rfl⟩
  all_goals simp only [fieldInfoOf, FieldDescriptor.kind, FieldDescriptor.cardinality,
    decide_eq_true_eq]

/-- Claim C4: each produced `FieldInfo` copies name and number, marks `Repeated`
exactly for the repeated cardinality, carries the nested message's full name
for message-kind fields and the kind name otherwise, and the fields pair up
with the descriptor's fields in declaration order. -/
theorem getMessageSchema_field_spec (d : MessageDescriptor) (s : MessageSchema)
    (h : getMessageSchema (some d) = .ok s) :
    s.Name = d.fullName ∧
    List.Forall₂ (fun (f : FieldDescriptor) (fi : FieldInfo) =>
      fi.Name = f.name ∧
      fi.Number = f.number ∧
      (fi.Repeated = true ↔ f.cardinality = Cardinality.repeated) ∧
      (∀ m, f.kind = Kind.message m → fi.«Type» = m.fullName) ∧
      ((∀ m, f.kind ≠ Kind.message m) → fi.«Type» = f.kind.kindString))
      d.fields s.Fields := by
  have h2 : (Except.ok { Name := d.fullName, Fields := d.fields.map fieldInfoOf } :
      Except ReflectorError MessageSchema) = .ok s := h
  obtain rfl := Except.ok.inj h2
  refine ⟨rfl, ?_⟩
  have hF : ({ Name := d.fullName, Fields := d.fields.map fieldInfoOf } :
      MessageSchema).Fields = d.fields.map fieldInfoOf := rfl
  rw [hF, List.forall₂_map_right_iff, List.forall₂_same]
  intro f _
  exact fieldInfoOf_spec f

/-- Claim C8: `getMessageSchema` is deterministic and idempotent: the same
descriptor always yields structurally equal schemas. -/
theorem getMessageSchema_idempotent (od : Option MessageDescriptor) :
    getMessageSchema od = getMessageSchema od ∧
    ∀ s1 s2, getMessageSchema od = .ok s1 → getMessageSchema od = .ok s2 →
      s1.Name = s2.Name ∧ s1.Fields = s2.Fields ∧ s1 = s2 := by
  refine ⟨rfl, fun s1 s2 h1 h2 => ?_⟩
  rw [h1] at h2
  have h3 := Except.ok.inj h2
  exact ⟨by rw [h3], by rw [h3], h3⟩

/-- `getMethodDescriptor` only ever returns descriptors that are registered:
a successful lookup is a method of some service of some loaded file. -/
theorem getMethodDescriptor_ok_mem (reg : Registry) (s : String)
    (md : MethodDescriptor) (h : getMethodDescriptor reg s = .ok md) :
    ∃ fd ∈ reg, ∃ sd ∈ fd.services, md ∈ sd.methods := by
  unfold getMethodDescriptor at h
  cases hp : stringsSplitSlash (trimPrefixSlash s) with
  | nil => rw [hp] at h; simp at h
  | cons a t =>
    cases t with
    | nil => rw [hp] at h; simp at h
    | cons b t2 =>
      cases t2 with
      | cons c t3 => rw [hp] at h; simp at h
      | nil =>
        rw [hp] at h
        have h2 : (match findMethod reg a b with
          | some methodDesc =>
            (Except.ok methodDesc : Except ReflectorError MethodDescriptor)
          | none => Except.error (ReflectorError.notFound s)) = Except.ok md := h
        cases hf : findMethod reg a b with
        | none => rw [hf] at h2; simp at h2
        | some md2 =>
          rw [hf] at h2
          have hmd : md2 = md := by simpa using h2
          rw [hmd] at hf
          have hh : (matchingMethods reg a b).head? = some md := by
            rw [← findMethod_eq_head?]
            exact hf
          have hmem : md ∈ matchingMethods reg a b := by
            rcases List.head?_eq_some_iff.mp hh with ⟨ys, hys⟩
            rw [hys]
            exact List.mem_cons_self _ _
          obtain ⟨_, fd, hfd, sd, hsd, _, hm⟩ := mem_matchingMethods hmem
          exact ⟨fd, hfd, sd, hsd, hm⟩

/-- The registries produced by real protobuf toolchains give every message a
non-empty fully-qualified name; the per-direction enrichment facts hold under
that assumption. -/
def descriptorNamesNonempty (reg : Registry) : Prop :=
  ∀ fd ∈ reg, ∀ sd ∈ fd.services, ∀ md ∈ sd.methods,
    md.input.fullName ≠ "" ∧ md.output.fullName ≠ ""

/-- Per method, enrichment is all-or-nothing: either the descriptor lookup
succeeded and both type names and both schemas are present, or it failed and
all four fields are absent. -/
theorem mkMethodInfo_enrichment (reg : Registry) (sn mn : String)
    (hreg : descriptorNamesNonempty reg) :
    ((mkMethodInfo reg sn mn).InputType ≠ "" ∧
     (mkMethodInfo reg sn mn).OutputType ≠ "" ∧
     (mkMethodInfo reg sn mn).InputSchema.isSome = true ∧
     (mkMethodInfo reg sn mn).OutputSchema.isSome = true) ∨
    ((mkMethodInfo reg sn mn).InputType = "" ∧
     (mkMethodInfo reg sn mn).OutputType = "" ∧
     (mkMethodInfo reg sn mn).InputSchema = none ∧
     (mkMethodInfo reg sn mn).OutputSchema = none) := by
  cases hd : getMethodDescriptor reg ("/" ++ sn ++ "/" ++ mn) with
  | error e =>
    right
    rw [mkMethodInfo_of_error reg sn mn e hd]
    exact ⟨rfl, rfl, rfl, rfl⟩
  | ok desc =>
    left
    obtain ⟨fd, hfd, sd, hsd, hmem⟩ := getMethodDescriptor_ok_mem reg _ desc hd
    obtain ⟨hin, hout⟩ := hreg fd hfd sd hsd desc hmem
    rw [mkMethodInfo_of_ok reg sn mn desc hd]
    exact ⟨hin, hout, rfl, rfl⟩

/-- Claim C7: a schema is attached to a method only when the corresponding type
name is populated; enrichment never attaches a schema to a method whose
lookup failed. -/
theorem schema_present_only_if_type_name (reg : Registry) (server : ServerHandle)
    (hreg : descriptorNamesNonempty reg) :
    ∀ si ∈ (GetServices reg server).1, ∀ mi ∈ si.Methods,
      (mi.InputSchema.isSome = true → mi.InputType ≠ "") ∧
      (mi.OutputSchema.isSome = true → mi.OutputType ≠ "") := by
  intro si hsi mi hmi
  have hGet : (GetServices reg server).1 = server.map fun p =>
      ({ Name := p.1
         Methods := p.2.Methods.map fun method =>
           mkMethodInfo reg p.1 method.Name } : ServiceInfo) := rfl
  rw [hGet] at hsi
  obtain ⟨p, hp, rfl⟩ := List.mem_map.mp hsi
  obtain ⟨m, hm, rfl⟩ := List.mem_map.mp hmi
  rcases mkMethodInfo_enrichment reg p.1 m.Name hreg with
    ⟨h1, h2, _, _⟩ | ⟨_, _, h3, h4⟩
  · exact ⟨fun _ => h1, fun _ => h2⟩
  · constructor
    · intro hs
      rw [h3] at hs
      simp at hs
    · intro hs
      rw [h4] at hs
      simp at hs

/-- Claim C10: the two type names are populated together: both present (lookup
succeeded) or both absent (lookup failed), given non-empty descriptor
names. -/
theorem type_names_both_or_neither (reg : Registry) (server : ServerHandle)
    (hreg : descriptorNamesNonempty reg) :
    ∀ si ∈ (GetServices reg server).1, ∀ mi ∈ si.Methods,
      (mi.InputType = "" ↔ mi.OutputType = "") := by
  intro si hsi mi hmi
  have hGet : (GetServices reg server).1 = server.map fun p =>
      ({ Name := p.1
         Methods := p.2.Methods.map fun method =>
           mkMethodInfo reg p.1 method.Name } : ServiceInfo) := rfl
  rw [hGet] at hsi
  obtain ⟨p, hp, rfl⟩ := List.mem_map.mp hsi
  obtain ⟨m, hm, rfl⟩ := List.mem_map.mp hmi
  rcases mkMethodInfo_enrichment reg p.1 m.Name hreg with
    ⟨h1, h2, _, _⟩ | ⟨h1, h2, _, _⟩
  · exact ⟨fun hin => absurd hin h1, fun hout => absurd hout h2⟩
  · exact ⟨fun _ => h2, fun _ => h1⟩

/-- One compact output line for a method, as §4.3 of the spec describes it:
signature form when both type names are present, bare name otherwise. -/
def methodLine (method : MethodInfo) : String :=
  if method.InputType ≠ "" ∧ method.OutputType ≠ "" then
    "    * " ++ method.Name ++ "(" ++ method.InputType ++ ") returns ("
      ++ method.OutputType ++ ")\n"
  else
    "    * " ++ method.Name ++ "\n"

/-- One compact output block for a service: its header line followed by one
line per method, in order. -/
def serviceBlock (service : ServiceInfo) : String :=
  "  - " ++ service.Name ++ "\n" ++ String.join (service.Methods.map methodLine)

theorem join_cons (s : String) (l : List String) :
    String.join (s :: l) = s ++ String.join l := by
  rw [String.join_eq, String.join_eq, List.map_cons, List.flatten_cons]
  rfl

theorem foldl_append_join {α : Type} (g : α → String) (f : String → α → String)
    (hf : ∀ sb a, f sb a = sb ++ g a) (l : List α) (sb : String) :
    l.foldl f sb = sb ++ String.join (l.map g) := by
  induction l generalizing sb with
  | nil =>
    rw [List.foldl_nil, List.map_nil,
      show String.join [] = "" from rfl, String.append_empty]
  | cons a l ih =>
    rw [List.foldl_cons, hf, ih, List.map_cons, join_cons, String.append_assoc]

theorem methodFold_step (sb : String) (method : MethodInfo) :
    (if method.InputType ≠ "" ∧ method.OutputType ≠ "" then
      sb ++ "    * " ++ method.Name ++ "(" ++ method.InputType
        ++ ") returns (" ++ method.OutputType ++ ")"
    else sb ++ "    * " ++ method.Name) ++ "\n" = sb ++ methodLine method := by
  unfold methodLine
  by_cases hc : method.InputType ≠ "" ∧ method.OutputType ≠ ""
  · rw [if_pos hc, if_pos hc]
    simp only [String.append_assoc]
    rfl
  · rw [if_neg hc, if_neg hc]
    simp only [String.append_assoc]

/-- Claim C5: the compact formatter emits one `  - <name>` line per service
followed by one line per method — the signature form exactly when both type
names are present — and renders the spec's end-to-end `pkg.Greeter` scenario
to the exact expected string. -/
theorem formatServices_spec (services : List ServiceInfo) :
    FormatServices services = String.join (services.map serviceBlock) ∧
    FormatServices
      [⟨"pkg.Greeter", [⟨"SayHello", "pkg.HelloRequest", "pkg.HelloReply",
        some ⟨"pkg.HelloRequest", [⟨"name", 1, "string", false⟩]⟩,
        some ⟨"pkg.HelloReply", [⟨"message", 1, "string", false⟩]⟩⟩]⟩] =
      "  - pkg.Greeter\n    * SayHello(pkg.HelloRequest) returns (pkg.HelloReply)\n" := by
  constructor
  · unfold FormatServices
    rw [foldl_append_join serviceBlock]
    · rw [String.empty_append]
    · intro sb service
      change service.Methods.foldl _
        (sb ++ "  - " ++ service.Name ++ "\n") = sb ++ serviceBlock service
      rw [foldl_append_join methodLine]
      · unfold serviceBlock
        simp only [String.append_assoc]
      · intro sb2 m
        exact methodFold_step sb2 m
  · rfl

/-! ## The spec's end-to-end scenario

A server registering `pkg.Greeter` with method `SayHello`, whose descriptors
are loaded in the global registry; plus a message with a nested-message field
and a repeated field for exercising the schema extraction. -/

def helloRequestDesc : MessageDescriptor :=
  .mk "pkg.HelloRequest" [.mk "name" 1 .string .optional]

def helloReplyDesc : MessageDescriptor :=
  .mk "pkg.HelloReply" [.mk "message" 1 .string .optional]

def sayHelloDesc : MethodDescriptor :=
  ⟨"SayHello", helloRequestDesc, helloReplyDesc⟩

def demoRegistry : Registry :=
  [⟨[⟨"pkg.Greeter", [sayHelloDesc]⟩]⟩]

def demoServer : ServerHandle :=
  [("pkg.Greeter", ⟨[⟨"SayHello"⟩]⟩)]

def demoInputSchema : MessageSchema :=
  ⟨"pkg.HelloRequest", [⟨"name", 1, "string", false⟩]⟩

def demoOutputSchema : MessageSchema :=
  ⟨"pkg.HelloReply", [⟨"message", 1, "string", false⟩]⟩

def demoMethodInfo : MethodInfo :=
  ⟨"SayHello", "pkg.HelloRequest", "pkg.HelloReply",
    some demoInputSchema, some demoOutputSchema⟩

def demoServiceInfo : ServiceInfo :=
  ⟨"pkg.Greeter", [demoMethodInfo]⟩

def innerDesc : MessageDescriptor := .mk "pkg.Inner" []

def outerDesc : MessageDescriptor :=
  .mk "pkg.Outer"
    [.mk "inner" 1 (.message innerDesc) .repeated, .mk "id" 2 .int64 .optional]

theorem demoRegistry_names_nonempty : descriptorNamesNonempty demoRegistry := by
  unfold descriptorNamesNonempty
  decide

theorem demoServiceInfo_mem :
    demoServiceInfo ∈ (GetServices demoRegistry demoServer).1 :=
  List.mem_singleton.mpr rfl

theorem demoMethodInfo_mem : demoMethodInfo ∈ demoServiceInfo.Methods :=
  List.mem_singleton.mpr rfl

/-! ## Witnesses -/

/-- Witness for C1 at a concrete failing lookup: with an empty registry the
descriptor of `SayHello` cannot be resolved and its `MethodInfo` keeps every
type/schema field absent. -/
theorem getServices_best_effort_witness :
    (∃ e, getMethodDescriptor [] ("/" ++ "pkg.Greeter" ++ "/" ++ "SayHello") =
      .error e) ∧
    mkMethodInfo [] "pkg.Greeter" "SayHello" =
      { Name := "SayHello", InputType := "", OutputType := "",
        InputSchema := none, OutputSchema := none } :=
  ⟨⟨ReflectorError.notFound "/pkg.Greeter/SayHello", rfl⟩,
    (getServices_best_effort [] demoServer).2.2.1 "pkg.Greeter" "SayHello"
      ⟨ReflectorError.notFound "/pkg.Greeter/SayHello", rfl⟩⟩

/-- Witness for C3 at the demo registry: `/pkg.Greeter/SayHello` resolves to
the registered descriptor, which is the first match. -/
theorem getMethodDescriptor_first_match_witness :
    stringsSplitSlash (trimPrefixSlash "/pkg.Greeter/SayHello") =
      ["pkg.Greeter", "SayHello"] ∧
    getMethodDescriptor demoRegistry "/pkg.Greeter/SayHello" = .ok sayHelloDesc ∧
    (sayHelloDesc.name = "SayHello" ∧
     (∃ fd ∈ demoRegistry, ∃ sd ∈ fd.services,
       sd.fullName = "pkg.Greeter" ∧ sayHelloDesc ∈ sd.methods) ∧
     (matchingMethods demoRegistry "pkg.Greeter" "SayHello").head? =
       some sayHelloDesc) :=
  ⟨rfl, rfl,
    getMethodDescriptor_first_match demoRegistry "/pkg.Greeter/SayHello"
      "pkg.Greeter" "SayHello" sayHelloDesc rfl rfl⟩

/-- Witness for C4 on a message with a nested-message repeated field and a
primitive singular field. -/
theorem getMessageSchema_field_spec_witness :
    getMessageSchema (some outerDesc) =
      .ok ⟨"pkg.Outer", [⟨"inner", 1, "pkg.Inner", true⟩,
        ⟨"id", 2, "int64", false⟩]⟩ ∧
    ((⟨"pkg.Outer", [⟨"inner", 1, "pkg.Inner", true⟩,
        ⟨"id", 2, "int64", false⟩]⟩ : MessageSchema).Name = outerDesc.fullName ∧
     List.Forall₂ (fun (f : FieldDescriptor) (fi : FieldInfo) =>
       fi.Name = f.name ∧
       fi.Number = f.number ∧
       (fi.Repeated = true ↔ f.cardinality = Cardinality.repeated) ∧
       (∀ m, f.kind = Kind.message m → fi.«Type» = m.fullName) ∧
       ((∀ m, f.kind ≠ Kind.message m) → fi.«Type» = f.kind.kindString))
       outerDesc.fields
       (⟨"pkg.Outer", [⟨"inner", 1, "pkg.Inner", true⟩,
         ⟨"id", 2, "int64", false⟩]⟩ : MessageSchema).Fields) :=
  ⟨rfl, getMessageSchema_field_spec outerDesc
    ⟨"pkg.Outer", [⟨"inner", 1, "pkg.Inner", true⟩,
      ⟨"id", 2, "int64", false⟩]⟩ rfl⟩

/-- Witness for C6: looking up a method absent from the demo registry fails
with `NotFoundError`. -/
theorem getMethodDescriptor_not_found_witness :
    stringsSplitSlash (trimPrefixSlash "/pkg.Greeter/Missing") =
      ["pkg.Greeter", "Missing"] ∧
    getMethodDescriptor demoRegistry "/pkg.Greeter/Missing" =
      .error (.notFound "/pkg.Greeter/Missing") :=
  ⟨rfl,
    getMethodDescriptor_not_found demoRegistry "/pkg.Greeter/Missing"
      "pkg.Greeter" "Missing" rfl
      (by unfold demoRegistry; decide)⟩

/-- Witness for C7 at the demo server: the enriched `SayHello` entry has both
schemas present and both type names non-empty. -/
theorem schema_present_only_if_type_name_witness :
    descriptorNamesNonempty demoRegistry ∧
    demoServiceInfo ∈ (GetServices demoRegistry demoServer).1 ∧
    demoMethodInfo ∈ demoServiceInfo.Methods ∧
    ((demoMethodInfo.InputSchema.isSome = true → demoMethodInfo.InputType ≠ "") ∧
     (demoMethodInfo.OutputSchema.isSome = true → demoMethodInfo.OutputType ≠ "")) :=
  ⟨demoRegistry_names_nonempty, demoServiceInfo_mem, demoMethodInfo_mem,
    schema_present_only_if_type_name demoRegistry demoServer
      demoRegistry_names_nonempty demoServiceInfo demoServiceInfo_mem
      demoMethodInfo demoMethodInfo_mem⟩

/-- Witness for C8 at a concrete schema resolution. -/
theorem getMessageSchema_idempotent_witness :
    getMessageSchema (some helloRequestDesc) = .ok demoInputSchema ∧
    (demoInputSchema.Name = demoInputSchema.Name ∧
     demoInputSchema.Fields = demoInputSchema.Fields ∧
     demoInputSchema = demoInputSchema) :=
  ⟨rfl, (getMessageSchema_idempotent (some helloRequestDesc)).2
    demoInputSchema demoInputSchema rfl rfl⟩

/-- Witness for C10 at the demo server: both type names of the enriched
`SayHello` entry are populated together. -/
theorem type_names_both_or_neither_witness :
    descriptorNamesNonempty demoRegistry ∧
    demoServiceInfo ∈ (GetServices demoRegistry demoServer).1 ∧
    demoMethodInfo ∈ demoServiceInfo.Methods ∧
    (demoMethodInfo.InputType = "" ↔ demoMethodInfo.OutputType = "") :=
  ⟨demoRegistry_names_nonempty, demoServiceInfo_mem, demoMethodInfo_mem,
    type_names_both_or_neither demoRegistry demoServer
      demoRegistry_names_nonempty demoServiceInfo demoServiceInfo_mem
      demoMethodInfo demoMethodInfo_mem⟩

end Reflector
